import Mathlib

/-!
Shallow embedding of `lib/libzfs/os/macos/libzfs_util_os.c` (openzfs-macos).

Two components are modelled:

* the readiness controller: `libzfs_module_loaded` (existence probe of the
  device node `/dev/<module>`) and `libzfs_load_module_impl` (optional loader
  invocation followed by a busy-then-sleep polling loop opening `ZFS_DEV`);
* the search-path launcher: `execvPe` (PATH-entry iteration with oversized
  candidate rejection, interpreter fallback on ENOEXEC, stat-based
  disambiguation of residual errors) and `execvpe` (PATH lookup with
  `_PATH_DEFPATH` fallback).

External OS facilities (getenv, access, open, stat, execve, the loader
subprocess, and the monotonic clock) are abstracted as oracle fields of
environment structures; libc's `strtol` (base 0) and `strncasecmp` are
modelled from their standard semantics, since the C file calls them but does
not define them.  Machine strings are byte sequences: `strlen` counts UTF-8
bytes exactly as the C `strlen` counts bytes of the encoded argument.
-/

/-! ## errno values (Darwin) -/

def ENOENT : Nat := 2
def ENXIO : Nat := 6
def E2BIG : Nat := 7
def ENOEXEC : Nat := 8
def ENOMEM : Nat := 12
def EACCES : Nat := 13
def ENOTDIR : Nat := 20
def ETXTBSY : Nat := 26
def ELOOP : Nat := 62
def ENAMETOOLONG : Nat := 63

/-! ## byte-level string model -/

/-- UTF-8 bytes of a string, as the C code sees a `const char *` content
(without the trailing NUL). -/
def utf8Bytes (s : String) : List UInt8 :=
  (s.data.map String.utf8EncodeChar).flatten

/-- Model of C `strlen`: number of bytes of the encoded string. -/
def strlen (s : String) : Nat := (utf8Bytes s).length

/-- Bytes of a C string stored in a buffer: everything before the first NUL. -/
def cStringBytes (l : List UInt8) : List UInt8 := l.takeWhile (fun b => b != 0)

/-- Model of repeated `strsep(&cur, sep)`: splits into fields, where leading,
trailing and doubled separators yield empty fields (one empty field for the
empty input). -/
def strsepSplit (sep : Char) : List Char → List (List Char)
  | [] => [[]]
  | c :: rest =>
    if c = sep then [] :: strsepSplit sep rest
    else
      match strsepSplit sep rest with
      | f :: fs => (c :: f) :: fs
      | [] => [[c]]

/-- Colon splitting of a search path, as the `strsep` loop of `execvPe`
produces it. -/
def splitColon (s : String) : List String := (strsepSplit ':' s.data).map String.mk

/-- ASCII lowercasing, as C `tolower` in the POSIX locale. -/
def asciiLower (c : Char) : Char :=
  if 'A' ≤ c ∧ c ≤ 'Z' then Char.ofNat (c.toNat + 32) else c

/-- `strncasecmpOk pat s` models `strncasecmp(s, pat, strlen(pat)) == 0`:
the first `|pat|` characters of `s` exist and equal `pat` case-insensitively. -/
def strncasecmpOk : List Char → List Char → Bool
  | [], _ => true
  | _ :: _, [] => false
  | p :: ps, c :: cs => (asciiLower p == asciiLower c) && strncasecmpOk ps cs

/-! ## libc strtol, base 0 (as called at line 142: strtol(timeout_str, NULL, 0)) -/

def isSpaceC (c : Char) : Bool :=
  c == ' ' || c == '\t' || c == '\n' || c == '\x0b' || c == '\x0c' || c == '\r'

/-- Value of a hexadecimal digit character, if any. -/
def digitVal (c : Char) : Option Nat :=
  if '0' ≤ c ∧ c ≤ '9' then some (c.toNat - '0'.toNat)
  else if 'a' ≤ c ∧ c ≤ 'f' then some (c.toNat - 'a'.toNat + 10)
  else if 'A' ≤ c ∧ c ≤ 'F' then some (c.toNat - 'A'.toNat + 10)
  else none

/-- Accumulate leading digits valid in the given base. -/
def digitsVal (base : Nat) : List Char → Nat → Nat
  | [], acc => acc
  | c :: rest, acc =>
    match digitVal c with
    | some d => if d < base then digitsVal base rest (acc * base + d) else acc
    | none => acc

def LONG_MAX : Int := 2 ^ 63 - 1
def LONG_MIN : Int := -(2 ^ 63)

/-- Model of C `strtol(s, NULL, 0)`: skip whitespace, optional sign, base
detection by prefix (`0x`/`0X` hex when followed by a hex digit, leading `0`
octal, otherwise decimal), accumulate digits, clamp to the long range. -/
def strtol (s : String) : Int :=
  let cs0 := s.data.dropWhile isSpaceC
  let neg : Bool := cs0.head? == some '-'
  let cs1 :=
    match cs0 with
    | '-' :: rest => rest
    | '+' :: rest => rest
    | _ => cs0
  let mag : Nat :=
    match cs1 with
    | '0' :: x :: rest =>
      if (x == 'x' || x == 'X') && (rest.head?.bind digitVal).isSome then
        digitsVal 16 rest 0
      else
        digitsVal 8 (x :: rest) 0
    | _ => digitsVal 10 cs1 0
  let v : Int := if neg then -(mag : Int) else (mag : Int)
  max LONG_MIN (min v LONG_MAX)

/-! ## readiness controller -/

/-- Device node path for a service: fixed prefix "/dev/" then the name
(lines 84-88). -/
def devPath (module : String) : String := "/dev/" ++ module

/-- The 256-byte stack buffer of `libzfs_module_loaded` after the `memcpy` of
the five prefix bytes and the `strcpy` of the module name: prefix bytes, name
bytes, terminating NUL (lines 84-88). -/
def module_loaded_buf (module : String) : List UInt8 :=
  utf8Bytes "/dev/" ++ utf8Bytes module ++ [0]

/-- Total bytes `libzfs_module_loaded` writes into its `char path[256]`. -/
def module_loaded_bytesWritten (module : String) : Nat :=
  (module_loaded_buf module).length

/-- `libzfs_module_loaded` (lines 81-91): `access(path, F_OK) == 0` on the
device-node path, with the filesystem abstracted as an oracle. -/
def libzfs_module_loaded (access : String → Bool) (module : String) : Bool :=
  access (devPath module)

/-- Result of one `open(ZFS_DEV, O_RDWR)` attempt. -/
inductive OpenRes where
  | ok (fd : Nat)
  | err (errno : Nat)
deriving DecidableEq

/-- What an iteration of the wait loop does before the loop condition:
`sched_yield()` in the busy phase, `usleep(10 * MILLISEC)` afterwards. -/
inductive WaitAction where
  | yieldTurn
  | sleepTen
deriving DecidableEq

/-- Oracles of the wait loop of `libzfs_load_module_impl` (lines 146-159).
`openRes k` is the result of the open at iteration `k`; `elapsedMid k` and
`elapsedEnd k` are `NSEC2MSEC(gethrtime() - start)` in milliseconds at the
busy-phase check (line 154) and at the `while` condition (line 159) of
iteration `k`. -/
structure WaitEnv where
  openRes : Nat → OpenRes
  elapsedMid : Nat → Nat
  elapsedEnd : Nat → Nat

def MILLISEC : Nat := 1000

/-- Busy-wait budget in milliseconds (line 108). -/
def busy_timeout : Nat := 10

/-- The do/while wait loop (lines 147-159), fuel-indexed: iteration `k` opens
the device; success returns 0, an errno other than ENOENT returns that errno,
ENOENT yields or sleeps and retries while elapsed milliseconds stay below
`timeoutMs`.  Returns the C return value paired with the yield/sleep trace;
`none` means the fuel ran out before the loop exited. -/
def waitLoop (w : WaitEnv) (timeoutMs : Nat) : Nat → Nat → Option (Nat × List WaitAction)
  | 0, _ => none
  | fuel + 1, k =>
    match w.openRes k with
    | OpenRes.ok _ => some (0, [])
    | OpenRes.err e =>
      if e ≠ ENOENT then some (e, [])
      else
        let a := if w.elapsedMid k < busy_timeout then WaitAction.yieldTurn
                 else WaitAction.sleepTen
        if w.elapsedEnd k < timeoutMs then
          match waitLoop w timeoutMs fuel (k + 1) with
          | none => none
          | some (r, as) => some (r, a :: as)
        else
          some (ENOENT, [a])

/-- Timeout parsing of lines 140-144: default 10 seconds, otherwise
`strtol(timeout_str, NULL, 0)` clamped by `MAX(MIN(timeout, 10*60), 0)`. -/
def moduleTimeout (getenv : String → Option String) : Int :=
  match getenv "ZFS_MODULE_TIMEOUT" with
  | none => 10
  | some s => max (min (strtol s) (10 * 60)) 0

/-- ZFS_MODULE_LOADING parsing of lines 114-121: set when the value begins
case-insensitively with "YES" or "ON". -/
def loadFlag (load_str : Option String) : Bool :=
  match load_str with
  | none => false
  | some s => strncasecmpOk "YES".data s.data || strncasecmpOk "ON".data s.data

/-- Oracles of `libzfs_load_module_impl`: the environment, the filesystem at
the first existence probe (line 113) and at the re-check (line 128), whether
`libzfs_run_process("/sbin/kextload", ...)` returns 0 (line 124), and the wait
loop's oracles. -/
structure SysEnv where
  getenv : String → Option String
  access1 : String → Bool
  runOk : Bool
  access2 : String → Bool
  wait : WaitEnv

/-- `libzfs_load_module_impl` (lines 102-162).  Returns the C return value
(`some 0` success, `some errno` failure, `none` when the wait-loop fuel runs
out) paired with whether the loader helper was invoked. -/
def libzfs_load_module_impl (env : SysEnv) (module : String) (fuel : Nat) :
    Option Nat × Bool :=
  let waitRet :=
    (waitLoop env.wait ((moduleTimeout env.getenv).toNat * MILLISEC) fuel 0).map Prod.fst
  if libzfs_module_loaded env.access1 module then
    (waitRet, false)
  else
    let load := loadFlag (env.getenv "ZFS_MODULE_LOADING")
    if load then
      if env.runOk then
        if libzfs_module_loaded env.access2 module then (waitRet, true)
        else (some ENXIO, true)
      else (some ENOEXEC, true)
    else
      if libzfs_module_loaded env.access2 module then (waitRet, false)
      else (some ENXIO, false)

/-! ## search-path launcher -/

def MAXPATHLEN : Nat := 1024
def PATH_BSHELL : String := "/bin/sh"
def PATH_DEFPATH : String := "/usr/bin:/bin"

/-- Outcome of `execvPe`: either `execve` succeeded (the process image is
replaced by the given path and argument vector) or the function returns -1
with the given errno. -/
inductive ExecOutcome where
  | replaced (path : String) (argv : List String)
  | failed (errno : Nat)
deriving DecidableEq

/-- What processing one candidate does to the search: continue to the next
path entry (recording whether this candidate hit EACCES), or end the whole
search. -/
inductive Step where
  | cont (sawEacces : Bool)
  | halt (o : ExecOutcome)
deriving DecidableEq

/-- Oracles of `execvPe`: the result of `execve(path, argv, envp)` (`none` =
success, the process is replaced) and whether `stat(path, &sb)` succeeds.
`envp` is fixed for one call and omitted. -/
structure ExecEnv where
  execve : String → List String → Option Nat
  statOk : String → Bool

/-- The `retry:` block of `execvPe` (lines 267-314) for one candidate path
`bp`: run `execve` and classify `errno` by the switch.  E2BIG, ENOMEM and
ETXTBSY end the search with that errno; ELOOP, ENAMETOOLONG, ENOENT and
ENOTDIR move on to the next entry; ENOEXEC retries through the shell with
argv `"sh" :: bp :: argv.drop 1` and ends the search either way; any other
errno is disambiguated by `stat`: probe failure moves on, EACCES is recorded
and moves on, anything else ends the search with the saved errno. -/
def tryCandidate (env : ExecEnv) (argv : List String) (bp : String) : Step :=
  match env.execve bp argv with
  | none => Step.halt (ExecOutcome.replaced bp argv)
  | some e =>
    if e = E2BIG then Step.halt (ExecOutcome.failed e)
    else if e = ELOOP ∨ e = ENAMETOOLONG ∨ e = ENOENT then Step.cont false
    else if e = ENOEXEC then
      let memp := "sh" :: bp :: argv.drop 1
      match env.execve PATH_BSHELL memp with
      | none => Step.halt (ExecOutcome.replaced PATH_BSHELL memp)
      | some e2 => Step.halt (ExecOutcome.failed e2)
    else if e = ENOMEM then Step.halt (ExecOutcome.failed e)
    else if e = ENOTDIR then Step.cont false
    else if e = ETXTBSY then Step.halt (ExecOutcome.failed e)
    else
      if env.statOk bp then
        if e = EACCES then Step.cont true
        else Step.halt (ExecOutcome.failed e)
      else Step.cont false

/-- Effective length `lp` of a path entry: an empty field stands for "." of
length 1 (lines 243-247). -/
def entryLen (p : String) : Nat := if p = "" then 1 else strlen p

/-- The candidate assembled in `buf` (lines 262-265): entry (or "."), slash,
name. -/
def buildCand (p name : String) : String :=
  (if p = "" then "." else p) ++ "/" ++ name

/-- The per-entry loop of `execvPe` (lines 238-315) over the remaining path
entries, carrying the `eacces` flag and the list of entries already reported
as too long on stderr.  An entry whose candidate would overflow `buf`
(`lp + ln + 2 > sizeof(buf)`, line 255) is diagnosed and skipped; otherwise
the candidate is tried.  Exhaustion reports EACCES if recorded, else ENOENT
(lines 316-319). -/
def searchLoop (env : ExecEnv) (name : String) (argv : List String) :
    List String → Bool → List String → ExecOutcome × List String
  | [], eacces, diags =>
    (ExecOutcome.failed (if eacces then EACCES else ENOENT), diags)
  | p :: rest, eacces, diags =>
    if entryLen p + strlen name + 2 > MAXPATHLEN then
      searchLoop env name argv rest eacces (diags ++ [p])
    else
      match tryCandidate env argv (buildCand p name) with
      | Step.cont b => searchLoop env name argv rest (eacces || b) diags
      | Step.halt o => (o, diags)

/-- `execvPe` (lines 205-322).  A name containing '/' is tried directly once
(the classification then falls out of the loop, reporting EACCES or ENOENT);
an empty name fails with ENOENT; otherwise the colon-split path is searched. -/
def execvPe (env : ExecEnv) (name path : String) (argv : List String) :
    ExecOutcome × List String :=
  if name.data.contains '/' then
    match tryCandidate env argv name with
    | Step.halt o => (o, [])
    | Step.cont b => (ExecOutcome.failed (if b then EACCES else ENOENT), [])
  else if name = "" then
    (ExecOutcome.failed ENOENT, [])
  else
    searchLoop env name argv (splitColon path) false []

/-- Path selection of `execvpe` (lines 324-334): the PATH environment value
when getenv returns non-NULL, `_PATH_DEFPATH` otherwise. -/
def searchPath (getenv : String → Option String) : String :=
  match getenv "PATH" with
  | none => PATH_DEFPATH
  | some p => p

/-- `execvpe` (lines 324-334). -/
def execvpe (getenv : String → Option String) (env : ExecEnv)
    (name : String) (argv : List String) : ExecOutcome × List String :=
  execvPe env name (searchPath getenv) argv

/-! ## derived helpers used by the theorems -/

/-- What processing entry `p` does, including the too-long skip (which
continues without recording EACCES). -/
def stepOf (env : ExecEnv) (name : String) (argv : List String) (p : String) : Step :=
  if entryLen p + strlen name + 2 > MAXPATHLEN then Step.cont false
  else tryCandidate env argv (buildCand p name)

/-- Whether entry `p` lets the search continue. -/
def stepContinues (env : ExecEnv) (name : String) (argv : List String) (p : String) : Bool :=
  match stepOf env name argv p with
  | Step.cont _ => true
  | Step.halt _ => false

/-- Whether entry `p` records a permission-denied candidate. -/
def stepEacces (env : ExecEnv) (name : String) (argv : List String) (p : String) : Bool :=
  match stepOf env name argv p with
  | Step.cont b => b
  | Step.halt _ => false

/-- Entries reported as too long, in order. -/
def tooLongDiags (name : String) (entries : List String) : List String :=
  entries.filter (fun p => decide (entryLen p + strlen name + 2 > MAXPATHLEN))

/-! ## concrete environments used to instantiate the theorems -/

/-- Wait oracles where the device never appears: every open yields ENOENT, the
busy check reads 0 ms, the loop-condition clock advances 10 ms per iteration. -/
def wEnvAllENOENT : WaitEnv :=
  ⟨fun _ => OpenRes.err ENOENT, fun _ => 0, fun k => 10 * k⟩

/-- Wait oracles where every open is denied with EACCES. -/
def wEnvEACCES : WaitEnv :=
  ⟨fun _ => OpenRes.err EACCES, fun _ => 0, fun _ => 0⟩

/-- System oracles: node present, but opening the control device is denied. -/
def sEnvNodeEACCES : SysEnv :=
  ⟨fun _ => none, fun _ => true, true, fun _ => true, wEnvEACCES⟩

/-- System oracles: node present and the readiness open succeeds at once. -/
def sEnvNodeOpenOk : SysEnv :=
  ⟨fun _ => none, fun _ => true, true, fun _ => true,
    ⟨fun _ => OpenRes.ok 3, fun _ => 0, fun _ => 0⟩⟩

/-- Exec oracles: every exec is denied, every stat succeeds. -/
def xEnvEacces : ExecEnv := ⟨fun _ _ => some EACCES, fun _ => true⟩

/-- Exec oracles: every exec fails with ETXTBSY, every stat fails. -/
def xEnvTxtbsy : ExecEnv := ⟨fun _ _ => some ETXTBSY, fun _ => false⟩

/-- Exec oracles: every exec fails with EFAULT (14), every stat succeeds. -/
def xEnvEfault : ExecEnv := ⟨fun _ _ => some 14, fun _ => true⟩

/-- Exec oracles: direct execs fail with ENOEXEC, the shell exec is denied. -/
def xEnvNoexec : ExecEnv :=
  ⟨fun p _ => if p = PATH_BSHELL then some EACCES else some ENOEXEC, fun _ => true⟩

/-- Environment with PATH set to the empty string. -/
def getenvEmptyPATH : String → Option String :=
  fun v => if v = "PATH" then some "" else none

/-- Environment with PATH unset. -/
def getenvNoPATH : String → Option String := fun _ => none

/-- Environment with the module timeout set to "700". -/
def getenvT700 : String → Option String :=
  fun v => if v = "ZFS_MODULE_TIMEOUT" then some "700" else none

/-- Environment with the module timeout set to "-5". -/
def getenvTNeg : String → Option String :=
  fun v => if v = "ZFS_MODULE_TIMEOUT" then some "-5" else none

/-- A 1022-byte path entry, long enough to overflow the candidate buffer. -/
def longEntry : String := String.mk (List.replicate 1022 'a')

/-! ## general lemmas -/

theorem utf8Bytes_append (a b : String) : utf8Bytes (a ++ b) = utf8Bytes a ++ utf8Bytes b := by
  simp [utf8Bytes, String.data_append]

theorem strlen_append (a b : String) : strlen (a ++ b) = strlen a + strlen b := by
  simp [strlen, utf8Bytes_append]

theorem takeWhile_append_zero (l : List UInt8) (h : ∀ x ∈ l, x ≠ 0) :
    (l ++ [0]).takeWhile (fun b => b != 0) = l := by
  induction l with
  | nil => decide
  | cons c cs ih =>
    have hc : c ≠ 0 := h c (by simp)
    simp only [List.cons_append, List.takeWhile_cons]
    simp only [bne_iff_ne, ne_eq, hc, not_false_eq_true, if_true]
    rw [ih (fun x hx => h x (by simp [hx]))]

theorem strlen_buildCand (p name : String) :
    strlen (buildCand p name) = entryLen p + 1 + strlen name := by
  unfold buildCand entryLen
  by_cases hp : p = ""
  · simp only [hp, if_true, strlen_append]
    have h1 : strlen "." = 1 := by decide
    have h2 : strlen "/" = 1 := by decide
    omega
  · simp only [hp, if_false, strlen_append]
    have h2 : strlen "/" = 1 := by decide
    omega

/-! ## wait-loop lemmas -/

theorem waitLoop_succ (w : WaitEnv) (tMs fuel k : Nat) :
    waitLoop w tMs (fuel + 1) k =
      match w.openRes k with
      | OpenRes.ok _ => some (0, [])
      | OpenRes.err e =>
        if e ≠ ENOENT then some (e, [])
        else
          let a := if w.elapsedMid k < busy_timeout then WaitAction.yieldTurn
                   else WaitAction.sleepTen
          if w.elapsedEnd k < tMs then
            match waitLoop w tMs fuel (k + 1) with
            | none => none
            | some (r, as) => some (r, a :: as)
          else
            some (ENOENT, [a]) := rfl

theorem waitLoop_isSome_of_deadline (w : WaitEnv) (tMs : Nat) :
    ∀ fuel s, tMs ≤ w.elapsedEnd (s + fuel) → (waitLoop w tMs (fuel + 1) s).isSome = true := by
  intro fuel
  induction fuel with
  | zero =>
    intro s h
    rw [Nat.add_zero] at h
    rw [waitLoop_succ]
    cases hr : w.openRes s with
    | ok fd => simp
    | err e =>
      by_cases he : e = ENOENT
      · have hnlt : ¬ (w.elapsedEnd s < tMs) := by omega
        simp [he, hnlt]
      · simp [he]
  | succ n ih =>
    intro s h
    rw [waitLoop_succ]
    cases hr : w.openRes s with
    | ok fd => simp
    | err e =>
      by_cases he : e = ENOENT
      · by_cases hlt : w.elapsedEnd s < tMs
        · have h2 : tMs ≤ w.elapsedEnd ((s + 1) + n) := by
            have hidx : (s + 1) + n = s + (n + 1) := by omega
            rw [hidx]
            exact h
          have h3 := ih (s + 1) h2
          cases hx : waitLoop w tMs (n + 1) (s + 1) with
          | none =>
            rw [hx] at h3
            simp at h3
          | some pr =>
            cases pr with
            | mk r as => simp [he, hlt, hx]
        · simp [he, hlt]
      · simp [he]

theorem waitLoop_none_elapsed_lt (w : WaitEnv) (tMs : Nat) :
    ∀ fuel s, waitLoop w tMs fuel s = none → ∀ j, j < fuel → w.elapsedEnd (s + j) < tMs := by
  intro fuel
  induction fuel with
  | zero =>
    intro s h j hj
    omega
  | succ n ih =>
    intro s h j hj
    rw [waitLoop_succ] at h
    cases hr : w.openRes s with
    | ok fd =>
      rw [hr] at h
      simp at h
    | err e =>
      rw [hr] at h
      by_cases he : e = ENOENT
      · by_cases hlt : w.elapsedEnd s < tMs
        · have hrec : waitLoop w tMs n (s + 1) = none := by
            simp only [he, ne_eq, not_true_eq_false, if_false, hlt, if_true] at h
            cases hx : waitLoop w tMs n (s + 1) with
            | none => rfl
            | some pr =>
              cases pr with
              | mk r as =>
                rw [hx] at h
                simp at h
          cases j with
          | zero =>
            rw [Nat.add_zero]
            exact hlt
          | succ m =>
            have hm := ih (s + 1) hrec m (by omega)
            have hidx : s + (m + 1) = (s + 1) + m := by omega
            rw [hidx]
            exact hm
        · simp [he, hlt] at h
      · simp [he] at h

theorem waitLoop_err_aborts (w : WaitEnv) (tMs e : Nat) (he : e ≠ ENOENT) :
    ∀ n s fuel,
      (∀ j, j < n → w.openRes (s + j) = OpenRes.err ENOENT ∧ w.elapsedEnd (s + j) < tMs) →
      w.openRes (s + n) = OpenRes.err e → n < fuel →
      (waitLoop w tMs fuel s).map Prod.fst = some e := by
  intro n
  induction n with
  | zero =>
    intro s fuel hpre hk hf
    obtain ⟨m, rfl⟩ : ∃ m, fuel = m + 1 := ⟨fuel - 1, by omega⟩
    rw [Nat.add_zero] at hk
    rw [waitLoop_succ, hk]
    simp [he]
  | succ n ih =>
    intro s fuel hpre hk hf
    obtain ⟨m, rfl⟩ : ∃ m, fuel = m + 1 := ⟨fuel - 1, by omega⟩
    have h0 := hpre 0 (by omega)
    rw [Nat.add_zero] at h0
    have hk2 : w.openRes ((s + 1) + n) = OpenRes.err e := by
      have hidx : s + (n + 1) = (s + 1) + n := by omega
      rwa [hidx] at hk
    have hrec := ih (s + 1) m
      (fun j hj => by
        have hj2 := hpre (j + 1) (by omega)
        have hidx : s + (j + 1) = (s + 1) + j := by omega
        rwa [hidx] at hj2)
      hk2 (by omega)
    rw [waitLoop_succ, h0.1]
    have hlt := h0.2
    cases hx : waitLoop w tMs m (s + 1) with
    | none =>
      rw [hx] at hrec
      simp at hrec
    | some pr =>
      cases pr with
      | mk r as =>
        rw [hx] at hrec
        have hr : r = e := by simpa using hrec
        simp [hlt, hx, hr]

/-! ## claims about the readiness controller -/

/-- C1 (amended): if the device node for the service already exists when
`libzfs_load_module_impl` is called, the loader helper is never invoked,
regardless of policy; and the call returns success provided the first
readiness open of the control device succeeds.  (The original claim's
unconditional "returns success" fails: the open-for-readiness probe can
fail, e.g. with EACCES, even though the node exists; see the
counterexample.) -/
theorem c1_node_exists_skips_loader (env : SysEnv) (module : String) (fuel : Nat)
    (hacc : env.access1 (devPath module) = true) :
    (libzfs_load_module_impl env module fuel).2 = false
    ∧ (∀ fd, env.wait.openRes 0 = OpenRes.ok fd → 0 < fuel →
        (libzfs_load_module_impl env module fuel).1 = some 0) := by
  constructor
  · simp [libzfs_load_module_impl, libzfs_module_loaded, hacc]
  · intro fd hfd hf
    obtain ⟨m, rfl⟩ : ∃ m, fuel = m + 1 := ⟨fuel - 1, by omega⟩
    rw [libzfs_load_module_impl]
    simp only [libzfs_module_loaded, hacc, if_true]
    rw [waitLoop_succ, hfd]
    rfl

/-- C1 counterexample: with the node present (`access1` true on "/dev/zfs")
but the readiness open denied with EACCES, the call does not return success —
it returns EACCES — although the loader is indeed never invoked. -/
theorem c1_node_exists_cex :
    libzfs_module_loaded sEnvNodeEACCES.access1 "zfs" = true
    ∧ libzfs_load_module_impl sEnvNodeEACCES "zfs" 1 = (some EACCES, false)
    ∧ some EACCES ≠ some 0 := by decide

/-- C1 witness: concrete instance of the amended claim. -/
theorem c1_node_exists_skips_loader_witness :
    (libzfs_load_module_impl sEnvNodeOpenOk "zfs" 1).2 = false
    ∧ (libzfs_load_module_impl sEnvNodeOpenOk "zfs" 1).1 = some 0 := by
  have h := c1_node_exists_skips_loader sEnvNodeOpenOk "zfs" 1 (by decide)
  exact ⟨h.1, h.2 3 (by decide) (by decide)⟩

/-- C2: for every timeout in [0,600] seconds, the wait loop terminates and
blocks no longer than the timeout plus one polling-interval unit (10 ms).
The clock oracle is constrained only by what the code's blocking operations
allow: the first loop-condition reading is at most one interval (10 ms), and
each later iteration advances it by at most one interval (the `usleep` of 10
milliseconds, line 157); `elapsedEnd K` reaching the deadline models that the
monotonic clock does advance.  Conjuncts: (1) the loop exits within `K + 1`
iterations; (2) the loop exits at any iteration whose elapsed time has
reached `timeout * MILLISEC` (exit as soon as elapsed reaches the timeout);
(3) whenever the first `k` iterations did not exit, the elapsed time at
iteration `k` — the total blocking time on a timeout exit — is at most
`timeout * MILLISEC + 10`. -/
theorem c2_wait_loop_terminates_bounded (w : WaitEnv) (tSec K : Nat)
    (htSec : tSec ≤ 600)
    (h0 : w.elapsedEnd 0 ≤ 10)
    (hstep : ∀ k, w.elapsedEnd (k + 1) ≤ w.elapsedEnd k + 10)
    (hK : tSec * MILLISEC ≤ w.elapsedEnd K) :
    (waitLoop w (tSec * MILLISEC) (K + 1) 0).isSome = true
    ∧ (∀ k, tSec * MILLISEC ≤ w.elapsedEnd k →
        (waitLoop w (tSec * MILLISEC) 1 k).isSome = true)
    ∧ (∀ k, waitLoop w (tSec * MILLISEC) k 0 = none →
        w.elapsedEnd k ≤ tSec * MILLISEC + 10) := by
  refine ⟨?_, ?_, ?_⟩
  · exact waitLoop_isSome_of_deadline w (tSec * MILLISEC) K 0 (by simpa using hK)
  · intro k hk
    exact waitLoop_isSome_of_deadline w (tSec * MILLISEC) 0 k (by simpa using hk)
  · intro k hnone
    cases k with
    | zero => omega
    | succ m =>
      have hm := waitLoop_none_elapsed_lt w (tSec * MILLISEC) (m + 1) 0 hnone m (by omega)
      rw [Nat.zero_add] at hm
      have := hstep m
      omega

/-- C2 witness: the bound instantiated at timeout 0 with a device that never
appears and a clock advancing 10 ms per iteration. -/
theorem c2_wait_loop_terminates_bounded_witness :
    (waitLoop wEnvAllENOENT (0 * MILLISEC) (0 + 1) 0).isSome = true :=
  (c2_wait_loop_terminates_bounded wEnvAllENOENT 0 0 (by omega) (by decide)
    (fun k => by
      show 10 * (k + 1) ≤ 10 * k + 10
      omega)
    (by decide)).1

/-- C7: `libzfs_load_module_impl` parses the timeout environment value with
`strtol` and clamps it to [0, 600]: "700" yields 600 and any negative parsed
value yields 0; with a zero timeout the wait loop performs exactly one open
attempt — the loop body is executed once whatever the remaining fuel — and,
when that probe fails with ENOENT and the busy-phase check still reads below
10 ms (which holds on the first iteration of a sane clock), the single
iteration merely yields the scheduler turn without sleeping. -/
theorem c7_timeout_parse_clamp_zero :
    (∀ g : String → Option String, g "ZFS_MODULE_TIMEOUT" = some "700" →
        moduleTimeout g = 600)
    ∧ (∀ (g : String → Option String) (s : String),
        g "ZFS_MODULE_TIMEOUT" = some s → strtol s < 0 → moduleTimeout g = 0)
    ∧ (∀ (w : WaitEnv) (fuel : Nat), waitLoop w 0 (fuel + 1) 0 = waitLoop w 0 1 0)
    ∧ (∀ w : WaitEnv, w.openRes 0 = OpenRes.err ENOENT → w.elapsedMid 0 < busy_timeout →
        waitLoop w 0 1 0 = some (ENOENT, [WaitAction.yieldTurn])) := by
  refine ⟨?_, ?_, ?_, ?_⟩
  · intro g hg
    simp only [moduleTimeout, hg]
    decide
  · intro g s hg hneg
    simp only [moduleTimeout, hg]
    omega
  · intro w fuel
    rw [waitLoop_succ, waitLoop_succ]
    cases hr : w.openRes 0 with
    | ok fd => rfl
    | err e =>
      by_cases he : e = ENOENT
      · simp [he]
      · simp [he]
  · intro w h1 h2
    rw [waitLoop_succ, h1]
    simp [h2]

/-- C7 witness: concrete instances — "700" clamps to 600, "-5" clamps to 0,
and with timeout 0 the loop is one probe ending in a yield. -/
theorem c7_timeout_parse_clamp_zero_witness :
    moduleTimeout getenvT700 = 600
    ∧ moduleTimeout getenvTNeg = 0
    ∧ waitLoop wEnvAllENOENT 0 (5 + 1) 0 = waitLoop wEnvAllENOENT 0 1 0
    ∧ waitLoop wEnvAllENOENT 0 1 0 = some (ENOENT, [WaitAction.yieldTurn]) := by
  have h := c7_timeout_parse_clamp_zero
  exact ⟨h.1 getenvT700 (by decide), h.2.1 getenvTNeg "-5" (by decide) (by decide),
    h.2.2.1 wEnvAllENOENT 5, h.2.2.2 wEnvAllENOENT (by decide) (by decide)⟩

/-- C8: if at any iteration that the wait loop reaches (all earlier
iterations probed ENOENT and stayed below the deadline) the open of the
control device fails with an errno other than ENOENT, the loop returns that
errno immediately: the result holds for every remaining fuel, so no further
retry is performed. -/
theorem c8_non_enoent_open_aborts (w : WaitEnv) (tMs e k fuel : Nat)
    (hpre : ∀ j, j < k → w.openRes j = OpenRes.err ENOENT ∧ w.elapsedEnd j < tMs)
    (hk : w.openRes k = OpenRes.err e) (he : e ≠ ENOENT) (hf : k < fuel) :
    (waitLoop w tMs fuel 0).map Prod.fst = some e := by
  refine waitLoop_err_aborts w tMs e he k 0 fuel ?_ ?_ hf
  · intro j hj
    simpa using hpre j hj
  · simpa using hk

/-- C8 witness: an EACCES on the very first open is returned at once. -/
theorem c8_non_enoent_open_aborts_witness :
    (waitLoop wEnvEACCES 10000 1 0).map Prod.fst = some EACCES :=
  c8_non_enoent_open_aborts wEnvEACCES 10000 EACCES 0 1
    (fun j hj => absurd hj (by omega)) (by decide) (by decide) (by decide)

/-! ## search-loop lemmas -/

theorem searchLoop_nil (env : ExecEnv) (name : String) (argv : List String)
    (ea : Bool) (ds : List String) :
    searchLoop env name argv [] ea ds =
      (ExecOutcome.failed (if ea then EACCES else ENOENT), ds) := rfl

theorem searchLoop_cons (env : ExecEnv) (name : String) (argv : List String)
    (p : String) (rest : List String) (ea : Bool) (ds : List String) :
    searchLoop env name argv (p :: rest) ea ds =
      if entryLen p + strlen name + 2 > MAXPATHLEN then
        searchLoop env name argv rest ea (ds ++ [p])
      else
        match tryCandidate env argv (buildCand p name) with
        | Step.cont b => searchLoop env name argv rest (ea || b) ds
        | Step.halt o => (o, ds) := rfl

theorem searchLoop_exhaust (env : ExecEnv) (name : String) (argv : List String) :
    ∀ (entries : List String) (ea : Bool) (ds : List String),
      (∀ p ∈ entries, stepContinues env name argv p = true) →
      searchLoop env name argv entries ea ds =
        (ExecOutcome.failed
          (if ea || entries.any (stepEacces env name argv) then EACCES else ENOENT),
         ds ++ tooLongDiags name entries) := by
  intro entries
  induction entries with
  | nil =>
    intro ea ds h
    simp [searchLoop_nil, tooLongDiags]
  | cons p rest ih =>
    intro ea ds h
    have hp := h p (by simp)
    rw [searchLoop_cons]
    by_cases hlong : entryLen p + strlen name + 2 > MAXPATHLEN
    · have hpe : stepEacces env name argv p = false := by
        simp [stepEacces, stepOf, hlong]
      rw [if_pos hlong, ih ea (ds ++ [p]) (fun q hq => h q (by simp [hq]))]
      simp [tooLongDiags, List.filter_cons, hlong, hpe]
    · rw [if_neg hlong]
      cases hc : tryCandidate env argv (buildCand p name) with
      | halt o =>
        exfalso
        simp [stepContinues, stepOf, hlong, hc] at hp
      | cont b =>
        have hpe : stepEacces env name argv p = b := by
          simp [stepEacces, stepOf, hlong, hc]
        have hred : (match Step.cont b with
            | Step.cont b => searchLoop env name argv rest (ea || b) ds
            | Step.halt o => (o, ds)) = searchLoop env name argv rest (ea || b) ds := rfl
        rw [hred, ih (ea || b) ds (fun q hq => h q (by simp [hq]))]
        simp [tooLongDiags, List.filter_cons, hlong, hpe, Bool.or_assoc]

/-! ## claims about the search-path launcher -/

/-- C3 counterexample: with PATH set to the empty string (a set but empty
environment value), `execvpe` does not fall back to the default list: the
search path used is the empty string itself, whose split is a single empty
entry (meaning the current directory) — not `_PATH_DEFPATH`. -/
theorem c3_empty_path_cex :
    getenvEmptyPATH "PATH" = some ""
    ∧ searchPath getenvEmptyPATH = ""
    ∧ PATH_DEFPATH ≠ ""
    ∧ splitColon "" = [""] := by decide

/-- C3 (amended): `execvpe` uses the fixed default path list exactly when the
PATH environment variable is unset (getenv returns NULL); any set value,
including the empty string, is used as the search path as-is. -/
theorem c3_default_path_only_when_unset (g : String → Option String) :
    (g "PATH" = none → searchPath g = PATH_DEFPATH)
    ∧ (∀ p, g "PATH" = some p → searchPath g = p)
    ∧ (∀ (env : ExecEnv) (name : String) (argv : List String),
        execvpe g env name argv = execvPe env name (searchPath g) argv) := by
  refine ⟨?_, ?_, ?_⟩
  · intro h
    simp [searchPath, h]
  · intro p h
    simp [searchPath, h]
  · intro env name argv
    rfl

/-- C3 witness: an unset PATH falls back to the default list; an empty PATH
is used as-is. -/
theorem c3_default_path_only_when_unset_witness :
    searchPath getenvNoPATH = PATH_DEFPATH
    ∧ searchPath getenvEmptyPATH = "" := by
  have h1 := c3_default_path_only_when_unset getenvNoPATH
  have h2 := c3_default_path_only_when_unset getenvEmptyPATH
  exact ⟨h1.1 rfl, h2.2.1 "" rfl⟩

/-- C4: a candidate failing with EACCES whose stat probe succeeds records the
permission denial and continues to later entries rather than ending the
search; and when every entry lets the loop continue (no successful execution,
no aborting error), the exhausted search fails with EACCES if any entry
recorded a permission-denied candidate (or the flag was already set), and
with ENOENT otherwise. -/
theorem c4_eacces_recorded_then_reported :
    (∀ (env : ExecEnv) (argv : List String) (bp : String),
        env.execve bp argv = some EACCES → env.statOk bp = true →
        tryCandidate env argv bp = Step.cont true)
    ∧ (∀ (env : ExecEnv) (name : String) (argv : List String)
        (entries : List String) (ea : Bool) (ds : List String),
        (∀ p ∈ entries, stepContinues env name argv p = true) →
        searchLoop env name argv entries ea ds =
          (ExecOutcome.failed
            (if ea || entries.any (stepEacces env name argv) then EACCES else ENOENT),
           ds ++ tooLongDiags name entries)) := by
  constructor
  · intro env argv bp hx hstat
    simp [tryCandidate, hx, hstat, EACCES, E2BIG, ELOOP, ENAMETOOLONG, ENOENT,
      ENOEXEC, ENOMEM, ENOTDIR, ETXTBSY]
  · intro env name argv entries ea ds h
    exact searchLoop_exhaust env name argv entries ea ds h

/-- C4 witness: with both entries denied (exec EACCES, stat ok), the
candidate step records and continues, and the exhausted search reports
EACCES, not ENOENT. -/
theorem c4_eacces_recorded_then_reported_witness :
    tryCandidate xEnvEacces ["zfs"] "/a/zfs" = Step.cont true
    ∧ searchLoop xEnvEacces "zfs" ["zfs"] ["/a", "/b"] false [] =
        (ExecOutcome.failed EACCES, []) := by
  have h := c4_eacces_recorded_then_reported
  refine ⟨h.1 xEnvEacces ["zfs"] "/a/zfs" (by decide) (by decide), ?_⟩
  have h2 := h.2 xEnvEacces "zfs" ["zfs"] ["/a", "/b"] false [] (by decide)
  rw [h2]
  decide

/-- C5 counterexample: ETXTBSY (26) is not among the errnos the claim lists
as explicitly classified, yet the code does not disambiguate it through the
stat probe: at a candidate whose exec fails with ETXTBSY and whose stat probe
fails, the claim requires continuing to the next entry, but the code ends the
whole search with ETXTBSY. -/
theorem c5_etxtbsy_cex :
    xEnvTxtbsy.execve "/a/prog" ["prog"] = some ETXTBSY
    ∧ xEnvTxtbsy.statOk "/a/prog" = false
    ∧ (ETXTBSY ≠ E2BIG ∧ ETXTBSY ≠ ELOOP ∧ ETXTBSY ≠ ENAMETOOLONG ∧ ETXTBSY ≠ ENOENT
        ∧ ETXTBSY ≠ ENOTDIR ∧ ETXTBSY ≠ ENOEXEC ∧ ETXTBSY ≠ ENOMEM)
    ∧ tryCandidate xEnvTxtbsy ["prog"] "/a/prog" = Step.halt (ExecOutcome.failed ETXTBSY)
    ∧ Step.halt (ExecOutcome.failed ETXTBSY) ≠ Step.cont false
    ∧ Step.halt (ExecOutcome.failed ETXTBSY) ≠ Step.cont true := by decide

/-- C5 (amended): ETXTBSY joins the explicitly classified errnos (the search
ends immediately with it, with no stat probe); for every exec failure whose
errno is none of E2BIG, ELOOP, ENAMETOOLONG, ENOENT, ENOEXEC, ENOMEM, ENOTDIR
and ETXTBSY, the code disambiguates through the stat probe: probe failure
continues to the next entry, EACCES is recorded and continues, and any other
errno ends the search with that errno. -/
theorem c5_default_case_stat_disambiguation (env : ExecEnv) (argv : List String)
    (bp : String) (e : Nat)
    (hx : env.execve bp argv = some e)
    (h1 : e ≠ E2BIG) (h2 : e ≠ ELOOP) (h3 : e ≠ ENAMETOOLONG) (h4 : e ≠ ENOENT)
    (h5 : e ≠ ENOEXEC) (h6 : e ≠ ENOMEM) (h7 : e ≠ ENOTDIR) (h8 : e ≠ ETXTBSY) :
    tryCandidate env argv bp =
      (if env.statOk bp then
        (if e = EACCES then Step.cont true else Step.halt (ExecOutcome.failed e))
      else Step.cont false) := by
  simp [tryCandidate, hx, h1, h2, h3, h4, h5, h6, h7, h8]

/-- C5 witness: EFAULT (14) is unclassified; with a succeeding stat probe the
search ends immediately with EFAULT. -/
theorem c5_default_case_stat_disambiguation_witness :
    tryCandidate xEnvEfault ["prog"] "/a/prog" = Step.halt (ExecOutcome.failed 14) := by
  have h := c5_default_case_stat_disambiguation xEnvEfault ["prog"] "/a/prog" 14
    (by decide) (by decide) (by decide) (by decide) (by decide) (by decide)
    (by decide) (by decide) (by decide)
  rw [h]
  decide

/-- C6: a candidate failing with ENOEXEC is re-attempted through the fixed
system shell `/bin/sh`, with argument vector `"sh"`, then the candidate path,
then the original arguments minus the program name; if that shell exec
succeeds the process is replaced by it, and if it fails the whole search ends
immediately with the shell exec's error — later path entries are not tried. -/
theorem c6_enoexec_shell_fallback (env : ExecEnv) (argv : List String) (bp : String)
    (hx : env.execve bp argv = some ENOEXEC) :
    (env.execve PATH_BSHELL ("sh" :: bp :: argv.drop 1) = none →
        tryCandidate env argv bp =
          Step.halt (ExecOutcome.replaced PATH_BSHELL ("sh" :: bp :: argv.drop 1)))
    ∧ (∀ e2, env.execve PATH_BSHELL ("sh" :: bp :: argv.drop 1) = some e2 →
        tryCandidate env argv bp = Step.halt (ExecOutcome.failed e2)
        ∧ ∀ (name p : String) (rest : List String) (ea : Bool) (ds : List String),
            buildCand p name = bp →
            ¬ (entryLen p + strlen name + 2 > MAXPATHLEN) →
            searchLoop env name argv (p :: rest) ea ds = (ExecOutcome.failed e2, ds)) := by
  constructor
  · intro hsh
    rw [List.drop_one] at hsh
    simp [tryCandidate, hx, hsh, ENOEXEC, E2BIG, ELOOP, ENAMETOOLONG, ENOENT]
  · intro e2 hsh
    have hstep : tryCandidate env argv bp = Step.halt (ExecOutcome.failed e2) := by
      rw [List.drop_one] at hsh
      simp [tryCandidate, hx, hsh, ENOEXEC, E2BIG, ELOOP, ENAMETOOLONG, ENOENT]
    refine ⟨hstep, ?_⟩
    intro name p rest ea ds hb hlen
    rw [searchLoop_cons, if_neg hlen, hb, hstep]

/-- C6 witness: a script under "/a" rejected with ENOEXEC is retried through
"/bin/sh" with the rebuilt argument vector; the denied shell exec ends the
search at once, with the entry "/b" never tried. -/
theorem c6_enoexec_shell_fallback_witness :
    tryCandidate xEnvNoexec ["tool", "-v"] "/a/tool" = Step.halt (ExecOutcome.failed EACCES)
    ∧ searchLoop xEnvNoexec "tool" ["tool", "-v"] ["/a", "/b"] false [] =
        (ExecOutcome.failed EACCES, []) := by
  have h := (c6_enoexec_shell_fallback xEnvNoexec ["tool", "-v"] "/a/tool" (by decide)).2
    EACCES (by decide)
  exact ⟨h.1, h.2 "tool" "/a" ["/b"] false [] (by decide) (by decide)⟩

/-- C9: a path entry whose combined candidate length overflows the fixed
buffer (`lp + ln + 2 > MAXPATHLEN`) is reported as a diagnostic and skipped,
the search continuing with the remaining entries; and consequently any
candidate actually written into the buffer occupies, NUL included, at most
MAXPATHLEN bytes. -/
theorem c9_too_long_entry_skipped (env : ExecEnv) (name p : String)
    (argv : List String) (rest : List String) (ea : Bool) (ds : List String) :
    (entryLen p + strlen name + 2 > MAXPATHLEN →
        searchLoop env name argv (p :: rest) ea ds =
          searchLoop env name argv rest ea (ds ++ [p]))
    ∧ (entryLen p + strlen name + 2 ≤ MAXPATHLEN →
        strlen (buildCand p name) + 1 ≤ MAXPATHLEN) := by
  constructor
  · intro h
    rw [searchLoop_cons, if_pos h]
  · intro h
    rw [strlen_buildCand]
    omega

theorem flatten_replicate_length (l : List UInt8) :
    ∀ n : Nat, ((List.replicate n l).flatten).length = n * l.length := by
  intro n
  induction n with
  | zero => simp
  | succ m ih =>
    rw [List.replicate_succ, List.flatten_cons, List.length_append, ih, Nat.succ_mul]
    omega

theorem strlen_longEntry : strlen longEntry = 1022 := by
  have hd : longEntry.data = List.replicate 1022 'a' := rfl
  have he : String.utf8EncodeChar 'a' = [(97 : UInt8)] := rfl
  rw [strlen, utf8Bytes, hd, List.map_replicate, he, flatten_replicate_length]
  simp

theorem entryLen_longEntry : entryLen longEntry = 1022 := by
  have hne : longEntry ≠ "" := by
    intro h
    have hd : List.replicate 1022 'a' = ([] : List Char) := congrArg String.data h
    have hl : (List.replicate 1022 'a').length = ([] : List Char).length :=
      congrArg List.length hd
    simp only [List.length_replicate, List.length_nil] at hl
    omega
  rw [entryLen, if_neg hne, strlen_longEntry]

/-- C9 witness: a 1022-byte entry with a 1-byte name overflows (1025 > 1024)
and is skipped with a diagnostic while the search goes on with "/b"; a fitting
candidate stays within the buffer. -/
theorem c9_too_long_entry_skipped_witness :
    searchLoop xEnvEacces "x" ["x"] [longEntry, "/b"] false [] =
      searchLoop xEnvEacces "x" ["x"] ["/b"] false ([] ++ [longEntry])
    ∧ strlen (buildCand "/b" "x") + 1 ≤ MAXPATHLEN := by
  have h := c9_too_long_entry_skipped xEnvEacces "x" longEntry ["x"] ["/b"] false []
  have h2 := c9_too_long_entry_skipped xEnvEacces "x" "/b" ["x"] [] false []
  refine ⟨h.1 ?_, h2.2 (by decide)⟩
  rw [entryLen_longEntry]
  decide

/-- C10: `libzfs_module_loaded` copies "/dev/" and then the unbounded service
name into its 256-byte stack buffer with no length check; the bytes written
(prefix, name, NUL) fit the buffer exactly when the name is at most 250 bytes
long, and the probed C string in the buffer is precisely the prefix followed
by the name. -/
theorem c10_module_loaded_buffer (m : String)
    (hm : ∀ b ∈ utf8Bytes m, b ≠ 0) :
    (module_loaded_bytesWritten m ≤ 256 ↔ strlen m ≤ 250)
    ∧ cStringBytes (module_loaded_buf m) = utf8Bytes (devPath m) := by
  constructor
  · have h5 : (utf8Bytes "/dev/").length = 5 := by decide
    simp only [module_loaded_bytesWritten, module_loaded_buf, strlen,
      List.length_append, List.length_singleton, h5]
    omega
  · have hall : ∀ x ∈ utf8Bytes "/dev/" ++ utf8Bytes m, x ≠ 0 := by
      intro x hx
      rcases List.mem_append.mp hx with h | h
      · have hdev : ∀ b ∈ utf8Bytes "/dev/", b ≠ 0 := by decide
        exact hdev x h
      · exact hm x h
    calc cStringBytes (module_loaded_buf m)
        = ((utf8Bytes "/dev/" ++ utf8Bytes m) ++ [0]).takeWhile (fun b => b != 0) := by
          rw [cStringBytes, module_loaded_buf, List.append_assoc]
      _ = utf8Bytes "/dev/" ++ utf8Bytes m := takeWhile_append_zero _ hall
      _ = utf8Bytes (devPath m) := (utf8Bytes_append "/dev/" m).symm

/-- C10 witness: the service name "zfs" (3 bytes, NUL-free) fits, and the
probed path is exactly "/dev/zfs". -/
theorem c10_module_loaded_buffer_witness :
    (module_loaded_bytesWritten "zfs" ≤ 256 ↔ strlen "zfs" ≤ 250)
    ∧ cStringBytes (module_loaded_buf "zfs") = utf8Bytes (devPath "zfs") :=
  c10_module_loaded_buffer "zfs" (by decide)
